import Mathlib

/-!
Shallow embedding of the capture-to-delivery pipeline of the `agentlensai`
python SDK (packages/python-sdk/src/agentlensai), covering:

* `exceptions.py`  — the typed error taxonomy;
* `_utils.py`      — `map_http_error`, `build_llm_call_events`;
* `async_client.py`— `AsyncAgentLensClient._request` retry/backoff loop;
* `_state.py`      — `InstrumentationState`;
* `_sender.py`     — `EventSender` (`_send_events`, `flush`, queue model);
* `pii.py`         — `apply_pii_filters`;
* `integrations/base_llm.py` — `BaseLLMInstrumentation`
  (instrument / uninstrument lifecycle and wrapper synthesis).

Python dictionaries, JSON values and callables are modelled explicitly;
machine floats are modelled as rationals; effectful inputs (uuid4, clock,
HTTP transport) are passed as explicit parameters or scripts.
-/

namespace AgentLens

/-- JSON-like python value (result of `json.loads`, content of payload dicts).
Dicts are insertion-ordered association lists, as python dicts are. -/
inductive Json where
  | null : Json
  | str (s : String) : Json
  | num (q : ℚ) : Json
  | bool (b : Bool) : Json
  | arr (xs : List Json) : Json
  | obj (kvs : List (String × Json)) : Json

/-- Python truthiness of a JSON-like value (`if raw_error:` in `_utils.py`). -/
def pyTruthy : Json → Bool
  | .null => false
  | .str s => !s.isEmpty
  | .num q => q ≠ 0
  | .bool b => b
  | .arr xs => !xs.isEmpty
  | .obj kvs => !kvs.isEmpty

/-- Python `str()` of a JSON-like value (only the string case is ever hit by
the claims; container/scalar renderings are schematic). -/
def pyStr : Json → String
  | .null => "None"
  | .str s => s
  | .num q => toString q
  | .bool b => if b then "True" else "False"
  | .arr _ => "<list>"
  | .obj _ => "<dict>"

/-- The SDK error taxonomy of `exceptions.py`.  Each subclass of
`AgentLensError` is one constructor; the constructor arguments are exactly
the data that varies per instance (the fixed `status`/`code` of each
subclass are recovered by `SdkError.status` / `SdkError.code`). -/
inductive SdkError where
  /-- The `AgentLensError(message, status, code, details)` — the base class,
  raised directly for unclassified API errors. -/
  | generic (message : String) (status : Nat) (code : String) (details : Option Json)
  /-- The `AuthenticationError` — "Raised on 401 Unauthorized." -/
  | authentication (message : String)
  /-- The `NotFoundError` — "Raised on 404 Not Found." -/
  | notFound (message : String)
  /-- The `ValidationError` — "Raised on 400 Bad Request." -/
  | validation (message : String) (details : Option Json)
  /-- The `AgentLensConnectionError` — "Raised when the server is unreachable." -/
  | connection (message : String)
  /-- The `QuotaExceededError` — "Raised on 402 Payment Required (quota exceeded)." -/
  | quotaExceeded (message : String)
  /-- The `RateLimitError` — "Raised on 429 Too Many Requests." -/
  | rateLimited (message : String) (retryAfter : Option ℚ)
  /-- The `BackpressureError` — "Raised on 503 Service Unavailable (backpressure)." -/
  | backpressure (message : String)

/-- The fixed `status` attribute each `exceptions.py` class installs. -/
def SdkError.status : SdkError → Nat
  | .generic _ s _ _ => s
  | .authentication _ => 401
  | .notFound _ => 404
  | .validation _ _ => 400
  | .connection _ => 0
  | .quotaExceeded _ => 402
  | .rateLimited _ _ => 429
  | .backpressure _ => 503

/-- The fixed `code` attribute each `exceptions.py` class installs. -/
def SdkError.code : SdkError → String
  | .generic _ _ c _ => c
  | .authentication _ => "AUTHENTICATION_ERROR"
  | .notFound _ => "NOT_FOUND"
  | .validation _ _ => "VALIDATION_ERROR"
  | .connection _ => "CONNECTION_ERROR"
  | .quotaExceeded _ => "QUOTA_EXCEEDED"
  | .rateLimited _ _ => "RATE_LIMITED"
  | .backpressure _ => "BACKPRESSURE"

/-- The `_utils.map_http_error(status, body_text)`.  The `json.loads(body_text)`
step is passed in explicitly as `parsed` (`none` models a parse failure,
matching the `contextlib.suppress(json.JSONDecodeError, ValueError)`). -/
def map_http_error (status : Nat) (bodyText : String) (parsed : Option Json) : SdkError :=
  let defaultMsg := if bodyText ≠ "" then bodyText else "HTTP " ++ toString status
  let md : String × Option Json :=
    match parsed with
    | some (.obj kvs) =>
      let rawError := (List.lookup "error" kvs).getD (.str "")
      let message := if pyTruthy rawError then pyStr rawError else defaultMsg
      (message, List.lookup "details" kvs)
    | _ => (defaultMsg, none)
  if status = 401 then .authentication md.1
  else if status = 404 then .notFound md.1
  else if status = 400 then .validation md.1 md.2
  else .generic md.1 status "API_ERROR" md.2

/-! ## `async_client.py` — the `_request` retry loop -/

/-- An HTTP response as the retry loop observes it: `status_code`, `text`,
the result of parsing the body as JSON (`none` = not valid JSON), and the
`Retry-After` header, pre-parsed as a rational (`none` = header absent or
not parseable as a float, matching the `suppress(ValueError, TypeError)`). -/
structure HttpResponse where
  status : Nat
  bodyText : String
  bodyJson : Option Json
  retryAfter : Option ℚ

/-- What one call to `_do_request` produces: either an
`AgentLensConnectionError` (from `httpx.ConnectError`) or a response. -/
inductive TransportResult where
  | conn (message : String)
  | resp (r : HttpResponse)

/-- Observable trace of one logical `_request` call: how many HTTP requests
were issued, the `asyncio.sleep` durations in order, and the outcome
(`.ok` = `response.json()` of the successful response, `.error` = raised). -/
structure RequestTrace where
  requests : Nat
  sleeps : List ℚ
  outcome : Except SdkError (Option Json)

/-- The `httpx.Response.is_success` — true exactly for 2xx statuses. -/
def isSuccess (status : Nat) : Bool := 200 ≤ status && status < 300

/-- The `AsyncAgentLensClient._MAX_RETRIES`. -/
def MAX_RETRIES : Nat := 3

/-- The `AsyncAgentLensClient._backoff(attempt) = min(1.0 * 2**attempt, 30.0)`. -/
def backoff (attempt : Nat) : ℚ := min ((1 : ℚ) * 2 ^ attempt) 30

/-- The body of `AsyncAgentLensClient._request`:
`for attempt in range(_MAX_RETRIES + 1)` with per-status retry policy.
`transport n` is the transport's answer to the `n`-th HTTP request;
`fuel` is the number of loop iterations left (`MAX_RETRIES + 1 - attempt`),
`sleeps` and `lastExc` accumulate the sleeps and `last_exc`. -/
def requestLoop (transport : Nat → TransportResult) :
    Nat → Nat → List ℚ → Option SdkError → RequestTrace
  | 0, attempt, sleeps, lastExc =>
    -- the `for` loop fell through: `raise last_exc` ("should not reach here")
    ⟨attempt, sleeps, .error (lastExc.getD (.generic "" 0 "API_ERROR" none))⟩
  | fuel + 1, attempt, sleeps, _lastExc =>
    match transport attempt with
    | .conn msg =>
      -- `except AgentLensConnectionError: raise` — connection errors are not retried
      ⟨attempt + 1, sleeps, .error (.connection msg)⟩
    | .resp r =>
      if isSuccess r.status then
        ⟨attempt + 1, sleeps, .ok r.bodyJson⟩
      else
        match map_http_error r.status r.bodyText r.bodyJson with
        | .authentication m =>
          -- 401 — never retry
          ⟨attempt + 1, sleeps, .error (.authentication m)⟩
        | .quotaExceeded m =>
          -- 402 — quota exceeded, never retry
          ⟨attempt + 1, sleeps, .error (.quotaExceeded m)⟩
        | .rateLimited m _ =>
          -- 429 — rate limited, retry with Retry-After header
          let err := SdkError.rateLimited m r.retryAfter
          if attempt < MAX_RETRIES then
            let wait := match r.retryAfter with
              | some ra => if ra ≠ 0 then ra else backoff attempt
              | none => backoff attempt
            requestLoop transport fuel (attempt + 1) (sleeps ++ [wait]) (some err)
          else ⟨attempt + 1, sleeps, .error err⟩
        | .backpressure m =>
          -- 503 — backpressure, retry with exponential backoff
          if attempt < MAX_RETRIES then
            requestLoop transport fuel (attempt + 1) (sleeps ++ [backoff attempt])
              (some (.backpressure m))
          else ⟨attempt + 1, sleeps, .error (.backpressure m)⟩
        | e =>
          -- All other errors — no retry
          ⟨attempt + 1, sleeps, .error e⟩

/-- One logical `_request` call (method/path/params held abstract: they do
not influence retry behaviour). -/
def request (transport : Nat → TransportResult) : RequestTrace :=
  requestLoop transport (MAX_RETRIES + 1) 0 [] none

/-! ## `_state.py` — `InstrumentationState` -/

/-- The `InstrumentationState` (`_state.py`).  The `client` handle is the
delivery boundary and is left out (what would be posted through it is the
return value of `send_events` below); a compiled `re.Pattern` is modelled
by its substitution action `s ↦ pattern.sub("[REDACTED]", s)`. -/
structure InstrumentationState where
  session_id : String
  agent_id : String
  redact : Bool
  pii_patterns : Option (List (String → String))
  pii_filter : Option (String → String)

/-! ## `pii.py` — `apply_pii_filters` -/

/-- The `apply_pii_filters` on a string: fold the `pattern.sub("[REDACTED]", ·)`
actions, then the custom `pii_filter`, exactly as `pii.py` does
(`if patterns:` is python truthiness — the empty list folds to the
identity either way). -/
def apply_pii_string (patterns : Option (List (String → String)))
    (piiFilter : Option (String → String)) (s : String) : String :=
  let r := match patterns with
    | some ps => ps.foldl (fun acc p => p acc) s
    | none => s
  match piiFilter with
  | some f => f r
  | none => r

mutual

/-- The `pii.apply_pii_filters(value, patterns, pii_filter)` — recursively apply
PII filtering to a JSON-like value (deep copy, no mutation): strings are
rewritten, dicts and lists are rebuilt element-wise, scalars pass through. -/
def apply_pii_filters (patterns : Option (List (String → String)))
    (piiFilter : Option (String → String)) : Json → Json
  | .str s => .str (apply_pii_string patterns piiFilter s)
  | .obj kvs => .obj (apply_pii_obj patterns piiFilter kvs)
  | .arr xs => .arr (apply_pii_arr patterns piiFilter xs)
  | v => v

/-- The dict comprehension of `apply_pii_filters`. -/
def apply_pii_obj (patterns : Option (List (String → String)))
    (piiFilter : Option (String → String)) :
    List (String × Json) → List (String × Json)
  | [] => []
  | (k, v) :: rest =>
    (k, apply_pii_filters patterns piiFilter v) :: apply_pii_obj patterns piiFilter rest

/-- The list comprehension of `apply_pii_filters`. -/
def apply_pii_arr (patterns : Option (List (String → String)))
    (piiFilter : Option (String → String)) : List Json → List Json
  | [] => []
  | x :: rest =>
    apply_pii_filters patterns piiFilter x :: apply_pii_arr patterns piiFilter rest

end

/-! ## `_sender.py` — `LlmCallData` and `EventSender._send_events` -/

/-- The `LlmCallData` (`_sender.py`): the captured telemetry unit.  `messages`
is `list[dict[str, Any]]`, already in AgentLens format. -/
structure LlmCallData where
  provider : String
  model : String
  messages : List (List (String × Json))
  system_prompt : Option String
  completion : Option String
  tool_calls : Option Json
  finish_reason : String
  input_tokens : Int
  output_tokens : Int
  total_tokens : Int
  cost_usd : ℚ
  latency_ms : ℚ
  parameters : Option Json
  thinking_tokens : Option Int

/-- The redacted-messages comprehension of `_send_events`:
`[{"role": m.get("role", "user"), "content": "[REDACTED]"} for m in messages]`. -/
def redactMessages (messages : List (List (String × Json))) : List (List (String × Json)) :=
  messages.map fun m =>
    [("role", (List.lookup "role" m).getD (.str "user")), ("content", .str "[REDACTED]")]

/-- The `EventSender._send_events(state, data)` — build the paired
`llm_call` / `llm_response` events.  The two effectful inputs
(`str(uuid.uuid4())` and `datetime.now(timezone.utc).isoformat()`) are the
explicit parameters `callId` and `timestamp`; the return value is the
`events` array POSTed through `state.client._request("POST", "/api/events")`.
Dict fields are listed in the source's insertion order, the conditional
ones appended exactly under the source's conditions. -/
def send_events (state : InstrumentationState) (data : LlmCallData)
    (callId timestamp : String) : List Json :=
  let redacted := state.redact
  let messages := if redacted then redactMessages data.messages else data.messages
  let call_payload : List (String × Json) :=
    [("callId", .str callId), ("provider", .str data.provider),
     ("model", .str data.model), ("messages", .arr (messages.map Json.obj))]
    ++ (match data.system_prompt with
        | some sp => [("systemPrompt", .str (if redacted then "[REDACTED]" else sp))]
        | none => [])
    ++ (match data.parameters with
        | some ps => [("parameters", ps)]
        | none => [])
    ++ (if redacted then [("redacted", .bool true)] else [])
  let usage : List (String × Json) :=
    [("inputTokens", .num data.input_tokens), ("outputTokens", .num data.output_tokens),
     ("totalTokens", .num data.total_tokens)]
    ++ (match data.thinking_tokens with
        | some tt => [("thinkingTokens", .num tt)]
        | none => [])
  let resp_payload : List (String × Json) :=
    [("callId", .str callId), ("provider", .str data.provider),
     ("model", .str data.model),
     ("completion", if redacted then .str "[REDACTED]"
                    else (data.completion.map Json.str).getD .null),
     ("finishReason", .str data.finish_reason), ("usage", .obj usage),
     ("costUsd", .num data.cost_usd), ("latencyMs", .num data.latency_ms)]
    ++ (match data.tool_calls with
        | some tc => [("toolCalls", tc)]
        | none => [])
    ++ (if redacted then [("redacted", .bool true)] else [])
  [.obj [("sessionId", .str state.session_id), ("agentId", .str state.agent_id),
         ("eventType", .str "llm_call"), ("severity", .str "info"),
         ("payload", .obj call_payload),
         ("metadata", .obj [("source", .str "auto-instrumentation")]),
         ("timestamp", .str timestamp)],
   .obj [("sessionId", .str state.session_id), ("agentId", .str state.agent_id),
         ("eventType", .str "llm_response"), ("severity", .str "info"),
         ("payload", .obj resp_payload),
         ("metadata", .obj [("source", .str "auto-instrumentation")]),
         ("timestamp", .str timestamp)]]

/-! ## `_sender.py` — the queue / flush model -/

/-- The `_QueueItem`: a `(state, data)` work item or the `_STOP` sentinel. -/
inductive QueueItem where
  | item (st : InstrumentationState) (data : LlmCallData)
  | stop

/-- The observable state of an `EventSender`'s `queue.Queue`:
`sync_mode` is fixed at construction, `pending` is the FIFO of items put
but not yet taken, `unfinished` is the queue's count of unfinished tasks
(`put` increments it, `task_done` decrements it; `queue.join()` blocks
while it is nonzero). -/
structure SenderState where
  syncMode : Bool
  pending : List QueueItem
  unfinished : Nat

/-- A freshly constructed async-mode sender: empty queue. -/
def asyncSender : SenderState := ⟨false, [], 0⟩

/-- The `queue.put` / `put_nowait`: append and bump the unfinished-task count. -/
def putItem (s : SenderState) (i : QueueItem) : SenderState :=
  ⟨s.syncMode, s.pending ++ [i], s.unfinished + 1⟩

/-- Enqueue a sequence of items (a caller issuing several `send()`s). -/
def putAll (s : SenderState) (items : List QueueItem) : SenderState :=
  items.foldl putItem s

/-- One iteration of `EventSender._worker_loop`: `queue.get(timeout=1.0)`
either times out on an empty queue (loop again, no state change) or takes
the head item; delivery errors are swallowed and `task_done()` runs in the
`finally`, so in either branch the item is removed and the unfinished-task
count drops by one. -/
def workerStep (s : SenderState) : SenderState :=
  match s.pending with
  | [] => s
  | _ :: rest => ⟨s.syncMode, rest, s.unfinished - 1⟩

/-- The `EventSender.flush(timeout)`: returns at once in sync mode, otherwise
performs `self._queue.join()`, which returns exactly when the
unfinished-task count is zero.  `flushReturns s t` says the call, made in
queue state `s`, is not blocked.  The `timeout` parameter is accepted but
never read by the source (`noqa: ARG002`). -/
def flushReturns (s : SenderState) (timeout : ℚ) : Bool :=
  s.syncMode || decide (s.unfinished = 0)

/-! ## `integrations/base_llm.py` — patch lifecycle -/

/-- The `PatchTarget` (`base_llm.py`). -/
structure PatchTarget where
  module_path : String
  class_name : Option String
  attr_name : String
  is_async : Bool
deriving DecidableEq

/-- The dict key `f"{target.module_path}.{target.class_name}.{target.attr_name}"`
(an f-string renders a `None` class name as `"None"`). -/
def keyOf (t : PatchTarget) : String :=
  t.module_path ++ "." ++ (match t.class_name with | some c => c | none => "None")
    ++ "." ++ t.attr_name

/-- A python callable, identified up to object identity: either an original
provider function or a wrapper produced by `_make_sync_wrapper` /
`_make_async_wrapper` around some callable. -/
inductive Func where
  | orig (id : Nat)
  | wrapped (isAsync : Bool) (f : Func)
deriving DecidableEq

/-- The provider modules' attribute tables, as one partial map from patch
key (`module.class.attr`) to the callable currently installed there;
`none` models a resolution failure (`import_module`/`getattr` raising). -/
def Env : Type := String → Option Func

/-- The `setattr(owner, attr_name, v)`. -/
def envSet (env : Env) (k : String) (v : Func) : Env :=
  fun k' => if k' = k then some v else env k'

/-- Python dict assignment `d[k] = v`: overwrite the existing entry in
place, else append (insertion order preserved). -/
def dictInsert (l : List (String × Func)) (k : String) (v : Func) : List (String × Func) :=
  match l with
  | [] => [(k, v)]
  | (k', v') :: rest =>
    if k' = k then (k, v) :: rest else (k', v') :: dictInsert rest k v

/-- The `self._originals` dict plus the `self._instrumented` flag of a
`BaseLLMInstrumentation`. -/
structure InstrState where
  originals : List (String × Func)
  instrumented : Bool
deriving DecidableEq

/-- The `BaseLLMInstrumentation.__init__`. -/
def freshInstr : InstrState := ⟨[], false⟩

/-- The `for target in self._get_patch_targets()` loop of `instrument()`:
resolve the owner, save the original into `_originals`, install the
wrapper.  A failure (unresolvable key) is caught, logged and skipped —
nothing is saved and nothing is patched for that target. -/
def instrumentLoop (ts : List PatchTarget) (env : Env)
    (origs : List (String × Func)) : Env × List (String × Func) :=
  match ts with
  | [] => (env, origs)
  | t :: rest =>
    match env (keyOf t) with
    | none => instrumentLoop rest env origs
    | some original =>
      instrumentLoop rest
        (envSet env (keyOf t) (.wrapped t.is_async original))
        (dictInsert origs (keyOf t) original)

/-- The `BaseLLMInstrumentation.instrument()`: guard on `_instrumented`, run
the patch loop, then set `_instrumented = True`. -/
def instrument (ts : List PatchTarget) (env : Env) (m : InstrState) :
    Env × InstrState :=
  if m.instrumented then (env, m)
  else
    let p := instrumentLoop ts env m.originals
    (p.1, ⟨p.2, true⟩)

/-- The `for key, (owner, attr_name, original) in self._originals.items()`
loop of `uninstrument()`: reinstall every saved original. -/
def restoreLoop (origs : List (String × Func)) (env : Env) : Env :=
  match origs with
  | [] => env
  | (k, f) :: rest => restoreLoop rest (envSet env k f)

/-- The `BaseLLMInstrumentation.uninstrument()`: no-op unless instrumented,
else restore all originals, clear the record dict, drop the flag. -/
def uninstrument (env : Env) (m : InstrState) : Env × InstrState :=
  if m.instrumented then (restoreLoop m.originals env, ⟨[], false⟩)
  else (env, m)

/-- Outcome of one call through a synthesized wrapper: the value returned
to the caller and the `(state, data)` pairs handed to `EventSender.send`. -/
structure WrapperOutcome (ρ : Type) where
  result : ρ
  sent : List (InstrumentationState × LlmCallData)

/-- The wrapper closure built by `_make_sync_wrapper(original)`, run on one
argument tuple.  `get_state()` is the `stateOpt` parameter; the provider's
`_is_streaming` predicate and `_extract_call_data` extractor are the
`isStreaming` / `extract` parameters (`extract` returning `none` models an
extraction exception, which is caught and logged); `latency` stands for the
measured wall-clock time. -/
def syncWrapperRun {α ρ : Type} (stateOpt : Option InstrumentationState)
    (isStreaming : α → Bool) (extract : ρ → α → ℚ → Option LlmCallData)
    (original : α → ρ) (latency : ℚ) (args : α) : WrapperOutcome ρ :=
  match stateOpt with
  | none => ⟨original args, []⟩
  | some st =>
    if isStreaming args then ⟨original args, []⟩
    else
      let response := original args
      let sent := match extract response args latency with
        | some d => [(st, d)]
        | none => []
      ⟨response, sent⟩

/-! ## Helper observers (used only to state properties) -/

/-- Field access in a JSON object (first binding wins, as in a python dict). -/
def jsonField (j : Json) (k : String) : Option Json :=
  match j with
  | .obj kvs => List.lookup k kvs
  | _ => none

/-- The `needle` occurs as a contiguous substring of `hay` (on the char lists). -/
def strContains (hay needle : String) : Bool :=
  (List.range (hay.length + 1)).any fun i => needle.data.isPrefixOf (hay.data.drop i)

/-- How many saved records carry the key `k`. -/
def countKey (k : String) (l : List (String × Func)) : Nat :=
  (l.map Prod.fst).count k

/-! ## Claims -/

/-- Claim C2 (code bug evidence). The status-to-error classification
`map_http_error` handles 401/404/400 as the taxonomy prescribes, but maps
402, 429 and 503 to the *generic* `AgentLensError` (code `"API_ERROR"`)
instead of `QuotaExceededError` / `RateLimitError` / `BackpressureError`,
contradicting the docstrings of `exceptions.py` and the repo's own tests
(`tests/test_async_retry.py`), which expect those typed errors. -/
theorem C2_map_http_error_taxonomy :
    map_http_error 401 "Unauthorized" none = .authentication "Unauthorized" ∧
    map_http_error 404 "missing" none = .notFound "missing" ∧
    map_http_error 400 "Bad request" none = .validation "Bad request" none ∧
    map_http_error 402 "Payment Required" none
      = .generic "Payment Required" 402 "API_ERROR" none ∧
    map_http_error 429 "Rate limited" none
      = .generic "Rate limited" 429 "API_ERROR" none ∧
    map_http_error 503 "Service Unavailable" none
      = .generic "Service Unavailable" 503 "API_ERROR" none :=
  ⟨rfl, rfl, rfl, rfl, rfl, rfl⟩

/-- Any body parse of a 401 response classifies to `AuthenticationError`. -/
theorem map_http_error_401 (bodyText : String) (parsed : Option Json) :
    ∃ m, map_http_error 401 bodyText parsed = .authentication m := by
  unfold map_http_error
  simp only [reduceIte]
  exact ⟨_, rfl⟩

/-- Claim C9. A transport answering the first request with HTTP 401 makes one
logical `_request` issue exactly 1 HTTP request, perform no sleep, and
raise an `AuthenticationError` — never retried. -/
theorem C9_auth_error_never_retried (transport : Nat → TransportResult)
    (r : HttpResponse) (h0 : transport 0 = .resp r) (h401 : r.status = 401) :
    (request transport).requests = 1 ∧ (request transport).sleeps = [] ∧
    ∃ m, (request transport).outcome = .error (.authentication m) := by
  obtain ⟨m, hm⟩ := map_http_error_401 r.bodyText r.bodyJson
  have : request transport = ⟨1, [], .error (.authentication m)⟩ := by
    unfold request requestLoop
    simp [h0, h401, hm, isSuccess]
  rw [this]
  exact ⟨rfl, rfl, m, rfl⟩

/-- Concrete fault-injected transport of C9's witness: always 401. -/
def transport401 : Nat → TransportResult :=
  fun _ => .resp ⟨401, "Unauthorized", none, none⟩

/-- Witness for C9 at the concrete 401 transport. -/
theorem C9_auth_error_never_retried_witness :
    (request transport401).requests = 1 ∧ (request transport401).sleeps = [] ∧
    ∃ m, (request transport401).outcome = .error (.authentication m) :=
  C9_auth_error_never_retried transport401 ⟨401, "Unauthorized", none, none⟩ rfl rfl

/-- The fault-injected transport of the claim: HTTP 503 on the first three
requests, then HTTP 200 with an empty JSON object body. -/
def transport503x3 : Nat → TransportResult :=
  fun n => if n < 3 then .resp ⟨503, "Service Unavailable", none, none⟩
           else .resp ⟨200, "", some (.obj []), none⟩

/-- Claim C1 (code bug evidence). Against a transport returning 503 three
times then 200, the code issues exactly **one** request, sleeps **zero**
times, and raises the generic `AgentLensError` — not 4 requests with
backoff sleeps `[1, 2, 4]` ending in success, as the claim (and the repo's
own test `test_async_retry_on_503_with_backoff`) state.  The 503-retry
branch of `_request` is unreachable because `map_http_error` never
produces a `BackpressureError`. -/
theorem C1_503_retry_code_bug :
    request transport503x3
      = ⟨1, [], .error (.generic "Service Unavailable" 503 "API_ERROR" none)⟩ :=
  rfl

/-- The `i`-th event of an emitted batch. -/
def eventOf (evs : List Json) (i : Nat) : Json := evs.getD i .null

/-- The `payload` object of an event. -/
def payloadOf (e : Json) : Json := (jsonField e "payload").getD .null

/-- Claim C8. One delivered record yields exactly two event payloads, an
`llm_call` event then an `llm_response` event, in that order, both
carrying the one generated `callId` and the one shared `timestamp`. -/
theorem C8_paired_events (state : InstrumentationState) (data : LlmCallData)
    (callId timestamp : String) :
    (send_events state data callId timestamp).length = 2 ∧
    jsonField (eventOf (send_events state data callId timestamp) 0) "eventType"
      = some (.str "llm_call") ∧
    jsonField (eventOf (send_events state data callId timestamp) 1) "eventType"
      = some (.str "llm_response") ∧
    jsonField (payloadOf (eventOf (send_events state data callId timestamp) 0)) "callId"
      = some (.str callId) ∧
    jsonField (payloadOf (eventOf (send_events state data callId timestamp) 1)) "callId"
      = some (.str callId) ∧
    jsonField (eventOf (send_events state data callId timestamp) 0) "timestamp"
      = some (.str timestamp) ∧
    jsonField (eventOf (send_events state data callId timestamp) 1) "timestamp"
      = some (.str timestamp) :=
  ⟨rfl, rfl, rfl, rfl, rfl, rfl, rfl⟩

/-- Every message rebuilt by the full-blackout comprehension carries the
sentinel as its `content`. -/
theorem redactMessages_content (d : List (List (String × Json))) :
    ∀ m ∈ (redactMessages d).map Json.obj,
      jsonField m "content" = some (.str "[REDACTED]") := by
  intro m hm
  simp only [redactMessages, List.map_map, List.mem_map, Function.comp] at hm
  obtain ⟨x, _, rfl⟩ := hm
  rfl

/-- Claim C4. With the state's `redact` flag set, both emitted payloads have
every human-readable text field equal to the sentinel `"[REDACTED]"`
(every message content, the system prompt when present, the completion)
and carry the `redacted: true` marker.  (The redaction is built by pure
construction of new structures — the comprehension embedded as
`redactMessages` — so the input record is untouched.) -/
theorem C4_full_blackout (state : InstrumentationState) (data : LlmCallData)
    (callId timestamp : String) (hred : state.redact = true) :
    (∃ ms, jsonField (payloadOf (eventOf (send_events state data callId timestamp) 0))
        "messages" = some (.arr ms) ∧
      ∀ m ∈ ms, jsonField m "content" = some (.str "[REDACTED]")) ∧
    (∀ sp, data.system_prompt = some sp →
      jsonField (payloadOf (eventOf (send_events state data callId timestamp) 0))
        "systemPrompt" = some (.str "[REDACTED]")) ∧
    jsonField (payloadOf (eventOf (send_events state data callId timestamp) 1))
      "completion" = some (.str "[REDACTED]") ∧
    jsonField (payloadOf (eventOf (send_events state data callId timestamp) 0))
      "redacted" = some (.bool true) ∧
    jsonField (payloadOf (eventOf (send_events state data callId timestamp) 1))
      "redacted" = some (.bool true) := by
  rcases hsys : data.system_prompt with _ | sp0 <;>
    rcases hpar : data.parameters with _ | ps0 <;>
      rcases htc : data.tool_calls with _ | tc0 <;>
        refine ⟨⟨(redactMessages data.messages).map Json.obj,
            by simp [send_events, eventOf, payloadOf, jsonField, List.lookup, hred],
            redactMessages_content _⟩,
          fun sp hsp => by
            simp at hsp
            all_goals
              simp [send_events, eventOf, payloadOf, jsonField, List.lookup, hred, hsys],
          by simp [send_events, eventOf, payloadOf, jsonField, List.lookup, hred, htc],
          by simp [send_events, eventOf, payloadOf, jsonField, List.lookup, hred, hsys, hpar],
          by simp [send_events, eventOf, payloadOf, jsonField, List.lookup, hred, htc]⟩

/-- Concrete inputs of C4's witness. -/
def blackoutState : InstrumentationState :=
  ⟨"sess-1", "agent-1", true, none, none⟩

/-- A concrete captured record with text in every redactable field. -/
def sampleData : LlmCallData :=
  ⟨"openai", "gpt-4",
   [[("role", .str "user"), ("content", .str "My email is test@example.com")]],
   some "You are helpful. Contact admin@corp.com",
   some "Sure! Your email is test@example.com",
   none, "stop", 10, 5, 15, 1/1000, 100, none, none⟩

/-- Witness for C4 at a concrete redacting state and record. -/
theorem C4_full_blackout_witness :
    (∃ ms, jsonField (payloadOf (eventOf (send_events blackoutState sampleData "cid" "ts") 0))
        "messages" = some (.arr ms) ∧
      ∀ m ∈ ms, jsonField m "content" = some (.str "[REDACTED]")) ∧
    (∀ sp, sampleData.system_prompt = some sp →
      jsonField (payloadOf (eventOf (send_events blackoutState sampleData "cid" "ts") 0))
        "systemPrompt" = some (.str "[REDACTED]")) ∧
    jsonField (payloadOf (eventOf (send_events blackoutState sampleData "cid" "ts") 1))
      "completion" = some (.str "[REDACTED]") ∧
    jsonField (payloadOf (eventOf (send_events blackoutState sampleData "cid" "ts") 0))
      "redacted" = some (.bool true) ∧
    jsonField (payloadOf (eventOf (send_events blackoutState sampleData "cid" "ts") 1))
      "redacted" = some (.bool true) :=
  C4_full_blackout blackoutState sampleData "cid" "ts" rfl

/-- Concrete state of C3's evidence: no blackout, one pattern-based
redaction rule whose substitution action removes `test@example.com`
(the action of `PII_EMAIL.sub("[REDACTED]", ·)` on the strings of this
record). -/
def piiState : InstrumentationState :=
  ⟨"sess-1", "agent-1", false,
   some [fun s => if s = "My email is test@example.com"
                  then "My email is [REDACTED]" else s],
   none⟩

/-- Claim C3 (code bug evidence). With a configured pattern matching the
substring `"test@example.com"` of a message, `_send_events` emits the
message content verbatim — the payload still contains the matched
substring — because the sender never invokes `apply_pii_filters` (the
state's `pii_patterns`/`pii_filter` are ignored), contradicting the
claim and the repo's own tests
(`tests/test_pii_filtering.py::TestSendEventsWithPII`).  The third
conjunct shows the configured pipeline `apply_pii_filters` would have
scrubbed the substring. -/
theorem C3_pattern_redaction_code_bug :
    jsonField (payloadOf (eventOf (send_events piiState sampleData "cid" "ts") 0))
      "messages"
      = some (.arr [.obj [("role", .str "user"),
                          ("content", .str "My email is test@example.com")]]) ∧
    strContains "My email is test@example.com" "test@example.com" = true ∧
    apply_pii_filters piiState.pii_patterns piiState.pii_filter
        (.str "My email is test@example.com")
      = .str "My email is [REDACTED]" := by
  refine ⟨rfl, by decide, ?_⟩
  simp [apply_pii_filters, apply_pii_string, piiState]

/-- Claim C7. When no `InstrumentationState` is active (`get_state()` is
`None`) the synthesized wrapper returns exactly what the unwrapped
original returns and hands nothing to the sender; the same holds when the
provider's streaming predicate classifies the call as streaming. -/
theorem C7_wrapper_passthrough {α ρ : Type}
    (isStreaming : α → Bool) (extract : ρ → α → ℚ → Option LlmCallData)
    (original : α → ρ) (latency : ℚ) (args : α) :
    syncWrapperRun none isStreaming extract original latency args
      = ⟨original args, []⟩ ∧
    (∀ st : InstrumentationState, isStreaming args = true →
      syncWrapperRun (some st) isStreaming extract original latency args
        = ⟨original args, []⟩) := by
  refine ⟨rfl, fun st h => ?_⟩
  simp [syncWrapperRun, h]

/-- A concrete active state for C7's witness. -/
def c7State : InstrumentationState := ⟨"s1", "a1", false, none, none⟩

/-- Witness for C7: a concrete original `n ↦ n + 1` with an
always-streaming predicate, at argument 7. -/
theorem C7_wrapper_passthrough_witness :
    syncWrapperRun none (fun _ : Nat => true) (fun _ _ _ => none)
        (fun n : Nat => n + 1) 0 7 = ⟨8, []⟩ ∧
    syncWrapperRun (some c7State) (fun _ : Nat => true) (fun _ _ _ => none)
        (fun n : Nat => n + 1) 0 7 = ⟨8, []⟩ :=
  ⟨(C7_wrapper_passthrough (fun _ => true) (fun _ _ _ => none)
      (fun n => n + 1) 0 7).1,
   (C7_wrapper_passthrough (fun _ => true) (fun _ _ _ => none)
      (fun n => n + 1) 0 7).2 c7State rfl⟩

/-- The `putAll` appends the items and bumps the unfinished count by their
number. -/
theorem putAll_eq (items : List QueueItem) :
    ∀ s : SenderState,
      putAll s items = ⟨s.syncMode, s.pending ++ items, s.unfinished + items.length⟩ := by
  induction items with
  | nil => intro s; simp [putAll]
  | cons i rest ih =>
    intro s
    simp only [putAll, List.foldl_cons] at ih ⊢
    rw [ih]
    simp [putItem]
    omega

/-- The `k` worker iterations drain the first `k` items and lower the
unfinished count accordingly. -/
theorem workerStep_iterate (k : Nat) :
    ∀ q : List QueueItem,
      workerStep^[k] ⟨false, q, q.length⟩ = ⟨false, q.drop k, q.length - k⟩ := by
  induction k with
  | zero => intro q; simp
  | succ k ih =>
    intro q
    rw [Function.iterate_succ_apply]
    match q with
    | [] =>
      have h0 : workerStep ⟨false, ([] : List QueueItem), ([] : List QueueItem).length⟩
          = ⟨false, [], 0⟩ := rfl
      rw [h0]
      simpa using ih []
    | a :: rest =>
      have : workerStep ⟨false, a :: rest, (a :: rest).length⟩
          = ⟨false, rest, rest.length⟩ := by
        simp [workerStep]
      rw [this, ih]
      simp

/-- Claim C10. `flush(timeout)` ignores its timeout argument entirely; on a
sync-mode sender it returns immediately; on an async-mode sender it
returns exactly when every item enqueued before the call has been taken
off the queue and marked done (`k` worker iterations after `items` were
enqueued, that is exactly when `k ≥ items.length`). -/
theorem C10_flush_semantics (t t' : ℚ) (q : List QueueItem) (n : Nat)
    (items : List QueueItem) (k : Nat) :
    (∀ s : SenderState, flushReturns s t = flushReturns s t') ∧
    flushReturns ⟨true, q, n⟩ t = true ∧
    flushReturns (workerStep^[k] (putAll asyncSender items)) t
      = decide (items.length ≤ k) := by
  refine ⟨fun s => rfl, rfl, ?_⟩
  have h1 : putAll asyncSender items = ⟨false, items, items.length⟩ := by
    rw [putAll_eq items asyncSender]; simp [asyncSender]
  rw [h1, workerStep_iterate k items]
  simp only [flushReturns, Bool.false_or, decide_eq_decide]
  omega

/-! ### Dictionary and environment lemmas for the patch lifecycle -/

/-- Keys after `d[k] = v`: unchanged when `k` was present, else `k` is
appended at the end (insertion order). -/
theorem keys_dictInsert (l : List (String × Func)) (k : String) (v : Func) :
    (dictInsert l k v).map Prod.fst
      = if k ∈ l.map Prod.fst then l.map Prod.fst else l.map Prod.fst ++ [k] := by
  induction l with
  | nil => simp [dictInsert]
  | cons hd tl ih =>
    rcases hd with ⟨k', v'⟩
    by_cases h : k' = k
    · subst h
      simp [dictInsert]
    · have hne : k ≠ k' := fun he => h he.symm
      simp only [dictInsert, if_neg h, List.map_cons, ih, List.mem_cons, hne, false_or]
      by_cases hm : k ∈ tl.map Prod.fst
      · simp [hm]
      · simp [hm]

/-- After `d[k] = v`, the key `k` is present. -/
theorem dictInsert_mem_self (l : List (String × Func)) (k : String) (v : Func) :
    k ∈ (dictInsert l k v).map Prod.fst := by
  rw [keys_dictInsert]
  split_ifs with h
  · exact h
  · simp

/-- Dict assignment never removes a key. -/
theorem dictInsert_mem_mono (l : List (String × Func)) (k : String) (v : Func)
    (j : String) (hj : j ∈ l.map Prod.fst) : j ∈ (dictInsert l k v).map Prod.fst := by
  rw [keys_dictInsert]
  split_ifs with h
  · exact hj
  · exact List.mem_append_left _ hj

/-- A key of `d[k] = v` is a key of `d` or `k` itself. -/
theorem mem_keys_dictInsert (l : List (String × Func)) (k : String) (v : Func)
    (j : String) (hj : j ∈ (dictInsert l k v).map Prod.fst) :
    j ∈ l.map Prod.fst ∨ j = k := by
  rw [keys_dictInsert] at hj
  split_ifs at hj with h
  · exact Or.inl hj
  · rcases List.mem_append.mp hj with hj | hj
    · exact Or.inl hj
    · exact Or.inr (List.mem_singleton.mp hj)

/-- Dict assignment keeps the keys pairwise distinct. -/
theorem dictInsert_nodup (l : List (String × Func)) (k : String) (v : Func)
    (h : (l.map Prod.fst).Nodup) : ((dictInsert l k v).map Prod.fst).Nodup := by
  rw [keys_dictInsert]
  split_ifs with hm
  · exact h
  · exact h.append (List.nodup_singleton k) (by simp [List.disjoint_singleton, hm])

/-- Assigning an absent key appends the binding at the end. -/
theorem dictInsert_not_mem_eq_append (l : List (String × Func)) (k : String) (v : Func)
    (h : k ∉ l.map Prod.fst) : dictInsert l k v = l ++ [(k, v)] := by
  induction l with
  | nil => simp [dictInsert]
  | cons hd tl ih =>
    rcases hd with ⟨k', v'⟩
    simp only [List.map_cons, List.mem_cons, not_or] at h
    have hne : ¬ (k' = k) := fun he => h.1 he.symm
    simp [dictInsert, hne, ih h.2]

/-- The patch loop never deletes a saved record key. -/
theorem instrumentLoop_keys_mono (ts : List PatchTarget) :
    ∀ (env : Env) (origs : List (String × Func)) (j : String),
      j ∈ origs.map Prod.fst → j ∈ (instrumentLoop ts env origs).2.map Prod.fst := by
  induction ts with
  | nil => intro env origs j hj; simpa [instrumentLoop] using hj
  | cons t rest ih =>
    intro env origs j hj
    unfold instrumentLoop
    cases henv : env (keyOf t) with
    | none => exact ih env origs j hj
    | some o =>
      exact ih _ _ j (dictInsert_mem_mono origs (keyOf t) o j hj)

/-- Every target resolvable in the starting environment ends up with a
saved record (patching only ever writes `some` values, so a target stays
resolvable when its turn comes). -/
theorem instrumentLoop_mem (ts : List PatchTarget) :
    ∀ (env : Env) (origs : List (String × Func)) (t : PatchTarget),
      t ∈ ts → env (keyOf t) ≠ none →
      keyOf t ∈ (instrumentLoop ts env origs).2.map Prod.fst := by
  induction ts with
  | nil => intro env origs t ht; simp at ht
  | cons t0 rest ih =>
    intro env origs t ht hres
    unfold instrumentLoop
    rcases List.mem_cons.mp ht with rfl | htr
    · cases henv : env (keyOf t) with
      | none => exact absurd henv hres
      | some o =>
        exact instrumentLoop_keys_mono rest _ _ (keyOf t)
          (dictInsert_mem_self origs (keyOf t) o)
    · cases henv : env (keyOf t0) with
      | none => exact ih env origs t htr hres
      | some o =>
        refine ih _ _ t htr ?_
        unfold envSet
        by_cases hk : keyOf t = keyOf t0 <;> simp [hk, hres]

/-- The patch loop keeps the saved-record keys pairwise distinct. -/
theorem instrumentLoop_nodup (ts : List PatchTarget) :
    ∀ (env : Env) (origs : List (String × Func)),
      (origs.map Prod.fst).Nodup → ((instrumentLoop ts env origs).2.map Prod.fst).Nodup := by
  induction ts with
  | nil => intro env origs h; simpa [instrumentLoop] using h
  | cons t rest ih =>
    intro env origs h
    unfold instrumentLoop
    cases henv : env (keyOf t) with
    | none => exact ih env origs h
    | some o => exact ih _ _ (dictInsert_nodup origs (keyOf t) o h)

/-- Claim C5. `instrument()` is idempotent — the second call returns
immediately with the environment and record set unchanged — and the one
run leaves exactly one saved `PatchRecord` per resolvable
`(module, class, attr)` target. -/
theorem C5_instrument_idempotent (ts : List PatchTarget) (env : Env)
    (hres : ∀ t ∈ ts, env (keyOf t) ≠ none) :
    instrument ts (instrument ts env freshInstr).1 (instrument ts env freshInstr).2
      = instrument ts env freshInstr ∧
    ∀ t ∈ ts, countKey (keyOf t) (instrument ts env freshInstr).2.originals = 1 := by
  constructor
  · simp [instrument, freshInstr]
  · intro t ht
    have hsnd : (instrument ts env freshInstr).2.originals
        = (instrumentLoop ts env []).2 := by
      simp [instrument, freshInstr]
    rw [hsnd]
    have hnodup : ((instrumentLoop ts env []).2.map Prod.fst).Nodup :=
      instrumentLoop_nodup ts env [] (by simp)
    have hmem : keyOf t ∈ (instrumentLoop ts env []).2.map Prod.fst :=
      instrumentLoop_mem ts env [] t ht (hres t ht)
    have hle : ((instrumentLoop ts env []).2.map Prod.fst).count (keyOf t) ≤ 1 :=
      List.nodup_iff_count_le_one.mp hnodup (keyOf t)
    have hpos : 0 < ((instrumentLoop ts env []).2.map Prod.fst).count (keyOf t) :=
      List.count_pos_iff.mpr hmem
    unfold countKey
    omega

/-- A concrete one-target environment for the lifecycle witnesses. -/
def lifecycleEnv : Env :=
  fun k => if k = "openai.Completions.create" then some (.orig 0) else none

/-- The concrete target list of the lifecycle witnesses. -/
def lifecycleTargets : List PatchTarget :=
  [⟨"openai", some "Completions", "create", false⟩]

/-- Witness for C5 at one concrete resolvable target. -/
theorem C5_instrument_idempotent_witness :
    instrument lifecycleTargets
        (instrument lifecycleTargets lifecycleEnv freshInstr).1
        (instrument lifecycleTargets lifecycleEnv freshInstr).2
      = instrument lifecycleTargets lifecycleEnv freshInstr ∧
    ∀ t ∈ lifecycleTargets,
      countKey (keyOf t)
        (instrument lifecycleTargets lifecycleEnv freshInstr).2.originals = 1 :=
  C5_instrument_idempotent lifecycleTargets lifecycleEnv (by decide)

/-- Restoring a concatenation of record lists restores them in order. -/
theorem restoreLoop_append (a b : List (String × Func)) :
    ∀ env : Env, restoreLoop (a ++ b) env = restoreLoop b (restoreLoop a env) := by
  induction a with
  | nil => intro env; rfl
  | cons hd tl ih =>
    intro env
    rcases hd with ⟨k, f⟩
    simp only [List.cons_append, restoreLoop]
    exact ih _

/-- Restoration leaves attributes outside the saved keys untouched. -/
theorem restoreLoop_not_mem (origs : List (String × Func)) :
    ∀ (env : Env) (k : String), k ∉ origs.map Prod.fst →
      restoreLoop origs env k = env k := by
  induction origs with
  | nil => intro env k _; rfl
  | cons hd tl ih =>
    intro env k hk
    rcases hd with ⟨k0, f0⟩
    simp only [List.map_cons, List.mem_cons, not_or] at hk
    simp only [restoreLoop]
    rw [ih _ k hk.2]
    unfold envSet
    simp [hk.1]

/-- The value restored at `k` only depends on the input environment at `k`
when `k` is not among the saved keys. -/
theorem restoreLoop_congr (origs : List (String × Func)) :
    ∀ (env env' : Env) (k : String),
      (k ∉ origs.map Prod.fst → env k = env' k) →
      restoreLoop origs env k = restoreLoop origs env' k := by
  induction origs with
  | nil => intro env env' k h; exact h (by simp)
  | cons hd tl ih =>
    intro env env' k h
    rcases hd with ⟨k0, f0⟩
    simp only [restoreLoop]
    refine ih _ _ k fun hk => ?_
    unfold envSet
    by_cases he : k = k0
    · simp [he]
    · simp only [if_neg he]
      exact h (by simp only [List.map_cons, List.mem_cons, not_or]; exact ⟨he, hk⟩)

/-- Round trip of the patch loop: with pairwise-distinct target keys
(disjoint from the already-saved ones), restoring the records produced by
the patch loop undoes its environment changes. -/
theorem instrumentLoop_roundtrip (ts : List PatchTarget) :
    ∀ (env : Env) (origs : List (String × Func)),
      (ts.map keyOf).Nodup →
      (∀ t ∈ ts, keyOf t ∉ origs.map Prod.fst) →
      ∀ k, restoreLoop (instrumentLoop ts env origs).2 (instrumentLoop ts env origs).1 k
          = restoreLoop origs env k := by
  induction ts with
  | nil => intro env origs _ _ k; rfl
  | cons t0 rest ih =>
    intro env origs hnodup hdisj k
    simp only [List.map_cons, List.nodup_cons] at hnodup
    unfold instrumentLoop
    cases henv : env (keyOf t0) with
    | none =>
      exact ih env origs hnodup.2 (fun t ht => hdisj t (List.mem_cons_of_mem t0 ht)) k
    | some o =>
      have hk0 : keyOf t0 ∉ origs.map Prod.fst := hdisj t0 (List.mem_cons_self t0 rest)
      have hins : dictInsert origs (keyOf t0) o = origs ++ [(keyOf t0, o)] :=
        dictInsert_not_mem_eq_append origs (keyOf t0) o hk0
      have hdisj' : ∀ t ∈ rest,
          keyOf t ∉ (dictInsert origs (keyOf t0) o).map Prod.fst := by
        intro t ht hmem
        rcases mem_keys_dictInsert origs (keyOf t0) o (keyOf t) hmem with h' | h'
        · exact hdisj t (List.mem_cons_of_mem t0 ht) h'
        · exact hnodup.1 (h' ▸ List.mem_map_of_mem keyOf ht)
      rw [ih (envSet env (keyOf t0) (.wrapped t0.is_async o))
            (dictInsert origs (keyOf t0) o) hnodup.2 hdisj' k]
      rw [hins, restoreLoop_append]
      by_cases hk : k = keyOf t0
      · rw [hk, restoreLoop_not_mem origs env (keyOf t0) hk0, henv]
        show envSet (restoreLoop origs (envSet env (keyOf t0) (.wrapped t0.is_async o)))
            (keyOf t0) o (keyOf t0) = some o
        unfold envSet
        simp
      · show envSet (restoreLoop origs (envSet env (keyOf t0) (.wrapped t0.is_async o)))
            (keyOf t0) o k = restoreLoop origs env k
        unfold envSet
        simp only [if_neg hk]
        refine restoreLoop_congr origs _ env k fun _ => ?_
        simp [hk]

/-- Claim C6. After `instrument()` then `uninstrument()` (with pairwise
distinct target keys), every patched attribute again holds the exact
original callable saved before patching, the record set is cleared with
the instrumented flag dropped, and a repeated `uninstrument()` is a
no-op. -/
theorem C6_uninstrument_roundtrip (ts : List PatchTarget) (env : Env)
    (hnodup : (ts.map keyOf).Nodup) :
    (∀ k, (uninstrument (instrument ts env freshInstr).1
            (instrument ts env freshInstr).2).1 k = env k) ∧
    (uninstrument (instrument ts env freshInstr).1
        (instrument ts env freshInstr).2).2 = freshInstr ∧
    uninstrument
        (uninstrument (instrument ts env freshInstr).1
          (instrument ts env freshInstr).2).1
        (uninstrument (instrument ts env freshInstr).1
          (instrument ts env freshInstr).2).2
      = uninstrument (instrument ts env freshInstr).1
          (instrument ts env freshInstr).2 := by
  have h1 : instrument ts env freshInstr
      = ((instrumentLoop ts env []).1, ⟨(instrumentLoop ts env []).2, true⟩) := by
    simp [instrument, freshInstr]
  have h2 : uninstrument (instrument ts env freshInstr).1
      (instrument ts env freshInstr).2
      = (restoreLoop (instrumentLoop ts env []).2 (instrumentLoop ts env []).1,
         ⟨[], false⟩) := by
    rw [h1]
    simp [uninstrument]
  refine ⟨fun k => ?_, ?_, ?_⟩
  · rw [h2]
    exact instrumentLoop_roundtrip ts env [] hnodup (by simp) k
  · rw [h2]
    rfl
  · rw [h2]
    rfl

/-- Witness for C6 at one concrete resolvable target. -/
theorem C6_uninstrument_roundtrip_witness :
    (∀ k, (uninstrument (instrument lifecycleTargets lifecycleEnv freshInstr).1
            (instrument lifecycleTargets lifecycleEnv freshInstr).2).1 k
          = lifecycleEnv k) ∧
    (uninstrument (instrument lifecycleTargets lifecycleEnv freshInstr).1
        (instrument lifecycleTargets lifecycleEnv freshInstr).2).2 = freshInstr ∧
    uninstrument
        (uninstrument (instrument lifecycleTargets lifecycleEnv freshInstr).1
          (instrument lifecycleTargets lifecycleEnv freshInstr).2).1
        (uninstrument (instrument lifecycleTargets lifecycleEnv freshInstr).1
          (instrument lifecycleTargets lifecycleEnv freshInstr).2).2
      = uninstrument (instrument lifecycleTargets lifecycleEnv freshInstr).1
          (instrument lifecycleTargets lifecycleEnv freshInstr).2 :=
  C6_uninstrument_roundtrip lifecycleTargets lifecycleEnv (by decide)

end AgentLens
